import Mathlib

/-!
Verification of the view-transform and geometry-generation core of the
iced-plotter repository.  Machine floats (`f32`) are embedded as exact
rationals (`ℚ`); `u64`/`usize` as `ℕ`; `std::time::Instant` as a
millisecond timestamp `ℕ`; Rust panics (out-of-bounds indexing) as `none`
in an `Option` result.  Each definition is a direct translation of the
corresponding function in `src/shader.rs`, `src/ticks.rs`,
`src/colormap.rs` or `src/plotter.rs`.
-/

/-- Embedding of `iced::Color` (RGBA, each component an `f32`). -/
structure Color where
  r : ℚ
  g : ℚ
  b : ℚ
  a : ℚ
deriving DecidableEq

/-- `iced::Color::from_rgb` sets alpha to 1. -/
def colorFromRgb (r g b : ℚ) : Color := ⟨r, g, b, 1⟩

/-- Rust `f32::clamp(self, min, max)`: `min` if below, `max` if above, else `self`. -/
def qclamp (x lo hi : ℚ) : ℚ :=
  if x < lo then lo else if hi < x then hi else x

/-- `f32::EPSILON` = 2⁻²³, used by the source as its degeneracy threshold. -/
def f32EPS : ℚ := 1 / 8388608

/-- `shader.rs::clamp_range_to_bounds`: clamp a view range to bounds, keeping the
range size the same (shift rather than squash); if the range is wider than
bounds+padding, clamp it to the bounds size, centered. -/
def clamp_range_to_bounds (range : ℚ × ℚ) (bounds : Option (ℚ × ℚ))
    (padding_frac : ℚ) : ℚ × ℚ :=
  match bounds with
  | none => range
  | some (b_lo, b_hi) =>
    let lo := range.1
    let hi := range.2
    let pad := (b_hi - b_lo) * padding_frac
    let min_bound := b_lo - pad
    let max_bound := b_hi + pad
    let bounds_size := max_bound - min_bound
    let range_size := hi - lo
    if bounds_size < range_size then
      let center := (min_bound + max_bound) / 2
      (center - bounds_size / 2, center + bounds_size / 2)
    else
      let p1 := if lo < min_bound then (min_bound, min_bound + range_size) else (lo, hi)
      if max_bound < p1.2 then (max_bound - range_size, max_bound) else p1

/-- `shader.rs::apply_elastic_resistance`: exponential damping of out-of-bounds
excess.  The source calls `f32::exp`; the embedding abstracts that transcendental
as the parameter `expQ` (every theorem below that touches this function is
independent of the choice of `expQ`). -/
def apply_elastic_resistance (expQ : ℚ → ℚ) (range : ℚ × ℚ)
    (bounds : Option (ℚ × ℚ)) (padding_frac elastic_limit : ℚ) : ℚ × ℚ :=
  let lo := range.1
  let hi := range.2
  match bounds with
  | none => (lo, hi)
  | some (b_lo, b_hi) =>
    let pad := (b_hi - b_lo) * padding_frac
    let min_bound := b_lo - pad
    let max_bound := b_hi + pad
    let range_size := hi - lo
    let max_overscroll := range_size * elastic_limit
    if lo < min_bound then
      let over := min_bound - lo
      let damped := max_overscroll * (1 - expQ (-over / max_overscroll))
      let new_lo := min_bound - damped
      (new_lo, new_lo + range_size)
    else if max_bound < hi then
      let over := hi - max_bound
      let damped := max_overscroll * (1 - expQ (-over / max_overscroll))
      let new_hi := max_bound + damped
      (new_hi - range_size, new_hi)
    else
      (lo, hi)

/-- `shader.rs::is_out_of_bounds`: does a range exceed its padded bounds by more
than the 0.001 slack? -/
def is_out_of_bounds (range : ℚ × ℚ) (bounds : Option (ℚ × ℚ))
    (padding_frac : ℚ) : Bool :=
  match bounds with
  | none => false
  | some (b_lo, b_hi) =>
    let pad := (b_hi - b_lo) * padding_frac
    let min_bound := b_lo - pad
    let max_bound := b_hi + pad
    decide (range.1 < min_bound - 1/1000) || decide (max_bound + 1/1000 < range.2)

/-- `shader.rs::ease_out_cubic`. -/
def ease_out_cubic (t : ℚ) : ℚ :=
  let t := qclamp t 0 1
  1 - (1 - t) ^ 3

/-- `shader.rs::lerp_range`: interpolate between two ranges with ease-out-cubic. -/
def lerp_range (src tgt : ℚ × ℚ) (t : ℚ) : ℚ × ℚ :=
  let t := ease_out_cubic t
  (src.1 + (tgt.1 - src.1) * t, src.2 + (tgt.2 - src.2) * t)

/-- Embedding of `iced::Rectangle` (widget bounds). -/
structure Rect where
  x : ℚ
  y : ℚ
  width : ℚ
  height : ℚ
deriving DecidableEq

/-- `shader.rs::screen_to_data`: convert absolute screen coordinates to data
coordinates. -/
def screen_to_data (screen : ℚ × ℚ) (bounds : Rect) (view_x view_y : ℚ × ℚ)
    (padding : ℚ) : ℚ × ℚ :=
  let plot_width := bounds.width - 2 * padding
  let plot_height := bounds.height - 2 * padding
  let x_norm := (screen.1 - bounds.x - padding) / plot_width
  let y_norm := 1 - (screen.2 - bounds.y - padding) / plot_height
  (view_x.1 + x_norm * (view_x.2 - view_x.1),
   view_y.1 + y_norm * (view_y.2 - view_y.1))

/-- `shader.rs::lerp_color` (identical helper also in `colormap.rs`):
interpolate two colors; `from_rgb` drops alpha to 1. -/
def lerp_color (ca cb : Color) (t : ℚ) : Color :=
  let t := qclamp t 0 1
  colorFromRgb (ca.r + (cb.r - ca.r) * t) (ca.g + (cb.g - ca.g) * t)
    (ca.b + (cb.b - ca.b) * t)

/-- `ticks.rs::TickConfig`. -/
structure TickConfig where
  min_ticks : ℕ
  max_ticks : ℕ
deriving DecidableEq

/-- Default tick configuration (`min_ticks = 4`, `max_ticks = 10`). -/
def TickConfig.default : TickConfig := ⟨4, 10⟩

/-- The `while v <= hi + step * 0.001` accumulation loop of
`ticks.rs::compute_ticks`.  The extra `0 < step` guard records the fact that
the source loop only terminates for a positive step; `compute_ticks` always
calls it with one. -/
def tickLoop (v limit step : ℚ) : List ℚ :=
  if h : v ≤ limit ∧ 0 < step then
    v :: tickLoop (v + step) limit step
  else
    []
termination_by (⌊(limit - v) / step⌋ + 1).toNat
decreasing_by
  obtain ⟨hv, hs⟩ := h
  have hne : step ≠ 0 := ne_of_gt hs
  have h1 : (limit - (v + step)) / step = (limit - v) / step - 1 := by
    field_simp
    ring
  have hq : (0:ℚ) ≤ (limit - v) / step := div_nonneg (by linarith) hs.le
  have h2 : (0:ℤ) ≤ ⌊(limit - v) / step⌋ := Int.floor_nonneg.mpr hq
  have h3 : ⌊(limit - v) / step - 1⌋ = ⌊(limit - v) / step⌋ - 1 := by
    exact_mod_cast Int.floor_sub_int ((limit - v) / step) 1
  rw [h1, h3]
  omega

/-- `ticks.rs::compute_ticks`. -/
def compute_ticks (range_min range_max : ℚ) (config : TickConfig) : List ℚ :=
  if |range_max - range_min| < f32EPS then
    [range_min]
  else
    let lohi := if range_min < range_max then (range_min, range_max)
                else (range_max, range_min)
    let lo := lohi.1
    let hi := lohi.2
    let target : ℚ := (max ((config.min_ticks + config.max_ticks) / 2) 2 : ℕ)
    let rough_step := (hi - lo) / target
    let magnitude : ℚ := (10 : ℚ) ^ (Int.log 10 rough_step)
    let normalized := rough_step / magnitude
    let nice_factor : ℚ :=
      if normalized ≤ 1 then 1
      else if normalized ≤ 2 then 2
      else if normalized ≤ 5 then 5
      else 10
    let step := nice_factor * magnitude
    let start := (⌊lo / step⌋ : ℚ) * step
    tickLoop start (hi + step * (1/1000)) step

/-- `colormap.rs::ColormapName`. -/
inductive ColormapName where
  | viridis
  | plasma
  | turbo
  | heat
  | grayscale
deriving DecidableEq

/-- The 6-stop palette of `colormap.rs::sample_viridis`. -/
def viridisPalette : List (ℚ × Color) :=
  [(0, colorFromRgb (267/1000) (4/1000) (329/1000)),
   (1/4, colorFromRgb (282/1000) (140/1000) (458/1000)),
   (1/2, colorFromRgb (204/1000) (286/1000) (469/1000)),
   (3/5, colorFromRgb (128/1000) (400/1000) (369/1000)),
   (3/4, colorFromRgb (527/1000) (510/1000) (149/1000)),
   (1, colorFromRgb (993/1000) (906/1000) (144/1000))]

/-- The 6-stop palette of `colormap.rs::sample_plasma`. -/
def plasmaPalette : List (ℚ × Color) :=
  [(0, colorFromRgb (50/1000) (30/1000) (530/1000)),
   (1/4, colorFromRgb (275/1000) (5/1000) (610/1000)),
   (1/2, colorFromRgb (553/1000) (27/1000) (416/1000)),
   (3/5, colorFromRgb (764/1000) (190/1000) (217/1000)),
   (3/4, colorFromRgb (960/1000) (380/1000) (113/1000)),
   (1, colorFromRgb (940/1000) (975/1000) (131/1000))]

/-- The 7-stop palette of `colormap.rs::sample_turbo`. -/
def turboPalette : List (ℚ × Color) :=
  [(0, colorFromRgb (180/1000) (70/1000) (450/1000)),
   (1/5, colorFromRgb 0 (300/1000) (740/1000)),
   (2/5, colorFromRgb 0 (780/1000) (870/1000)),
   (1/2, colorFromRgb 0 (980/1000) (600/1000)),
   (3/5, colorFromRgb (850/1000) (970/1000) (110/1000)),
   (4/5, colorFromRgb (970/1000) (430/1000) 0),
   (1, colorFromRgb (880/1000) 0 0)]

/-- The 5-stop palette of `colormap.rs::sample_heat`. -/
def heatPalette : List (ℚ × Color) :=
  [(0, colorFromRgb 0 0 0),
   (1/4, colorFromRgb (1/2) 0 0),
   (1/2, colorFromRgb 1 0 0),
   (3/4, colorFromRgb 1 (1/2) 0),
   (1, colorFromRgb 1 1 0)]

/-- The `for i in 0..len-1` scan with early return inside
`colormap.rs::sample_palette`: find the first adjacent pair of stops whose
interval contains `t` and interpolate there. -/
def paletteSegments : List (ℚ × Color) → ℚ → Option Color
  | (t0, c0) :: (t1, c1) :: rest, t =>
    if t0 ≤ t ∧ t ≤ t1 then
      some (lerp_color c0 c1 ((t - t0) / (t1 - t0)))
    else
      paletteSegments ((t1, c1) :: rest) t
  | _, _ => none

/-- `colormap.rs::sample_palette`.  The source indexes `palette[0]` and
`palette[len-1]` directly (panicking on an empty palette); every palette it is
called with is a nonempty constant, so the empty case here is unreachable. -/
def sample_palette (palette : List (ℚ × Color)) (t : ℚ) : Color :=
  let t := qclamp t 0 1
  match palette with
  | [] => colorFromRgb 0 0 0
  | first :: _ =>
    let lastStop := palette.getLastD first
    if t ≤ first.1 then first.2
    else if lastStop.1 ≤ t then lastStop.2
    else (paletteSegments palette t).getD lastStop.2

/-- `colormap.rs::ColormapName::sample`: clamp `t` to [0,1] then dispatch. -/
def ColormapName.sample (name : ColormapName) (t : ℚ) : Color :=
  let t := qclamp t 0 1
  match name with
  | .viridis => sample_palette viridisPalette t
  | .plasma => sample_palette plasmaPalette t
  | .turbo => sample_palette turboPalette t
  | .heat => sample_palette heatPalette t
  | .grayscale => colorFromRgb t t t

/-- `plotter.rs::ColorMode` (the borrowed `Cow` values array becomes a plain
list). -/
inductive ColorMode where
  | solid (c : Color)
  | valueGradient (low high : Color) (values : Option (List ℚ))
  | indexGradient (cstart cend : Color)
  | colormap (name : ColormapName) (values : Option (List ℚ))
deriving DecidableEq

/-- The source folds `min` over a values/points list starting from
`f32::INFINITY`; on every path where the fold is evaluated the list is nonempty
(an index into it succeeded just before, or the enclosing emptiness check
already passed), so the fold equals the minimum of a nonempty list.  `ℚ` has no
infinity, hence the head-seeded fold; the `[]` case is unreachable. -/
def listMin : List ℚ → ℚ
  | [] => 0
  | x :: xs => xs.foldl min x

/-- `max` analogue of `listMin` (fold seeded with `f32::NEG_INFINITY`). -/
def listMax : List ℚ → ℚ
  | [] => 0
  | x :: xs => xs.foldl max x

/-- `gpu_types.rs::RawPoint` as produced by `RawPoint::new` (position and RGBA
color; `shape` and `edge_distance` are the constants 0 there). -/
structure RawPoint where
  position : ℚ × ℚ
  color : Color
deriving DecidableEq

/-- The per-point body of the loop in
`shader.rs::PlotterPrimitive::apply_color_mode`: resolve one point's color.
`total` is `points_with_colors.len()`; `idx` the flattened index.  The
out-of-bounds `v[idx]` indexing of the source is embedded as `none` (a panic). -/
def colorOf (total : ℕ) (y_min y_max : ℚ) (idx : ℕ) :
    ℚ × ℚ × ColorMode → Option Color
  | (_, _, .solid c) => some c
  | (_, y, .valueGradient low high values) =>
    (match values with
     | some v => v[idx]?
     | none => some y).bind fun value =>
      let value_min := match values with
        | some v => listMin v
        | none => y_min
      let value_max := match values with
        | some v => listMax v
        | none => y_max
      let t := if |value_max - value_min| < f32EPS then 1/2
               else (value - value_min) / (value_max - value_min)
      some (lerp_color low high t)
  | (_, _, .indexGradient cstart cend) =>
    let t := if (1:ℚ) < (total : ℚ) then (idx : ℚ) / ((total : ℚ) - 1) else 1/2
    some (lerp_color cstart cend t)
  | (_, y, .colormap name values) =>
    (match values with
     | some v => v[idx]?
     | none => some y).bind fun value =>
      let value_min := match values with
        | some v => listMin v
        | none => y_min
      let value_max := match values with
        | some v => listMax v
        | none => y_max
      let t := if |value_max - value_min| < f32EPS then 1/2
               else (value - value_min) / (value_max - value_min)
      some (name.sample t)

/-- The enumerated loop of `apply_color_mode`, pushing one `RawPoint` per input
point; `none` models the panic of an out-of-bounds explicit-values index. -/
def applyColorAux (total : ℕ) (y_min y_max : ℚ) :
    ℕ → List (ℚ × ℚ × ColorMode) → Option (List RawPoint)
  | _, [] => some []
  | idx, p :: rest => do
    let c ← colorOf total y_min y_max idx p
    let tail ← applyColorAux total y_min y_max (idx + 1) rest
    pure (⟨(p.1, p.2.1), c⟩ :: tail)

/-- `shader.rs::PlotterPrimitive::apply_color_mode`. -/
def apply_color_mode (points_with_colors : List (ℚ × ℚ × ColorMode))
    (y_min y_max : ℚ) : Option (List RawPoint) :=
  applyColorAux points_with_colors.length y_min y_max 0 points_with_colors

/-- `plotter.rs::PlotPoints`: owned or borrowed point sequences, or a
procedural generator. -/
inductive PlotPoints where
  | owned (pts : List (ℚ × ℚ))
  | borrowed (pts : List (ℚ × ℚ))
  | generator (function : ℚ → ℚ) (x_range : ℚ × ℚ) (points : ℕ)

/-- `plotter.rs::PlotSeries`, restricted to the fields the claims touch: its
points and the color rule of its `SeriesStyle`. -/
structure PlotSeries where
  points : PlotPoints
  color : ColorMode

/-- The traversal order of a series' points, shared by
`PlotterPrimitive::new` and `Plotter::compute_data_ranges`: owned/borrowed
sequences in order; a generator sampled at `points` evenly spaced x values
(`t = i / max(points-1, 1)`). -/
def seriesPointList : PlotPoints → List (ℚ × ℚ)
  | .owned pts => pts
  | .borrowed pts => pts
  | .generator f xr n =>
    (List.range n).map fun i : ℕ =>
      let t : ℚ := (i : ℚ) / ((max (n - 1) 1 : ℕ) : ℚ)
      let x := xr.1 + t * (xr.2 - xr.1)
      (x, f x)

/-- The flattening pass of `PlotterPrimitive::new` (lines 122–159): every
series' points with that series' color rule, in series order. -/
def collectPointsWithColors (series : List PlotSeries) : List (ℚ × ℚ × ColorMode) :=
  (series.map fun s =>
    (seriesPointList s.points).map fun p => (p.1, p.2, s.color)).join

/-- The series-boundary indices recorded by the same pass: the flat index at
which each series starts. -/
def series_boundaries (series : List PlotSeries) : List ℕ :=
  (series.map fun s => (seriesPointList s.points).length).scanl (· + ·) 0
    |>.dropLast

/-- The data-space y range collected by `PlotterPrimitive::new`
(lines 125–168): min/max of every y, `(0, 1)` when there are no points, and a
symmetric ±0.5 expansion when the span is below `f32::EPSILON`. -/
def dataYRange (series : List PlotSeries) : ℚ × ℚ :=
  let pts := collectPointsWithColors series
  match pts with
  | [] => (0, 1)
  | _ :: _ =>
    let data_y_min := listMin (pts.map fun p => p.2.1)
    let data_y_max := listMax (pts.map fun p => p.2.1)
    if |data_y_max - data_y_min| < f32EPS then
      (data_y_min - 1/2, data_y_max + 1/2)
    else
      (data_y_min, data_y_max)

/-- The marker-point construction of `PlotterPrimitive::new`: flatten all
series, collect the data y range, and resolve every point's color with it. -/
def primitivePoints (series : List PlotSeries) : Option (List RawPoint) :=
  let pts := collectPointsWithColors series
  let yr := dataYRange series
  apply_color_mode pts yr.1 yr.2



/-- The visible (non-hidden) series' points in traversal order
(`plotter.rs::Plotter::compute_data_ranges`). -/
def visiblePoints (series : List PlotSeries) (hidden : List ℕ) : List (ℚ × ℚ) :=
  ((series.enum.filter fun p => !hidden.contains p.1).map fun p =>
    seriesPointList p.2.points).join

/-- `plotter.rs::Plotter::compute_data_ranges`: tight bounding box of all
visible points; `([0,1], [0,1])` when there are none; the y span alone gets the
±0.5 degenerate expansion. -/
def compute_data_ranges (series : List PlotSeries) (hidden : List ℕ) :
    (ℚ × ℚ) × (ℚ × ℚ) :=
  let pts := visiblePoints series hidden
  match pts with
  | [] => ((0, 1), (0, 1))
  | _ :: _ =>
    let x_min := listMin (pts.map fun q => q.1)
    let x_max := listMax (pts.map fun q => q.1)
    let y_min := listMin (pts.map fun q => q.2)
    let y_max := listMax (pts.map fun q => q.2)
    if |y_max - y_min| < f32EPS then
      ((x_min, x_max), (y_min - 1/2, y_max + 1/2))
    else
      ((x_min, x_max), (y_min, y_max))

/-- `plotter.rs::ViewState`: per-axis visible range, `none` = auto-fit. -/
structure ViewState where
  x_range : Option (ℚ × ℚ)
  y_range : Option (ℚ × ℚ)
deriving DecidableEq

/-- `plotter.rs::InteractionConfig`. -/
structure InteractionConfig where
  pan_x : Bool
  pan_y : Bool
  zoom_x : Bool
  zoom_y : Bool
  x_bounds : Option (ℚ × ℚ)
  y_bounds : Option (ℚ × ℚ)
  boundary_padding : ℚ
  zoom_speed : ℚ
  double_click_to_fit : Bool
  zoom_select : Bool
  elastic : Bool
  elastic_limit : ℚ
  elastic_duration_ms : ℕ
deriving DecidableEq

/-- `InteractionConfig::default()`. -/
def InteractionConfig.default : InteractionConfig :=
  ⟨true, false, true, false, none, none, 1/20, 1/10, true, true, true, 3/10, 200⟩

/-- The inputs of the shader program relevant to event handling: the `Plotter`
widget fields read by `shader.rs::update` and `plotter.rs::resolve_view_ranges`
(`has_on_view_change` records whether the `on_view_change` callback is set). -/
structure Plotter where
  series : List PlotSeries
  hidden : List ℕ
  view_state : ViewState
  interaction : InteractionConfig
  padding : ℚ
  autofit_padding : ℚ
  has_on_view_change : Bool

/-- `plotter.rs::Plotter::resolve_view_ranges`: per axis, an explicit range is
used as-is (clamped to the padded bounds when `enforce_bounds` with elastic
panning, bounds defaulting to the data bounds), and `none` auto-fits to the
data bounds expanded by the autofit padding fraction.
Returns (view_x, view_y, data_x, data_y). -/
def resolve_view_ranges (p : Plotter) (enforce_bounds : Bool) :
    (ℚ × ℚ) × (ℚ × ℚ) × (ℚ × ℚ) × (ℚ × ℚ) :=
  let dr := compute_data_ranges p.series p.hidden
  let data_x := dr.1
  let data_y := dr.2
  let view_x :=
    match p.view_state.x_range with
    | some r =>
      if enforce_bounds && p.interaction.elastic && p.interaction.pan_x then
        clamp_range_to_bounds r (p.interaction.x_bounds.or (some data_x))
          p.interaction.boundary_padding
      else r
    | none =>
      let span := data_x.2 - data_x.1
      let margin := span * p.autofit_padding
      (data_x.1 - margin, data_x.2 + margin)
  let view_y :=
    match p.view_state.y_range with
    | some r =>
      if enforce_bounds && p.interaction.elastic && p.interaction.pan_y then
        clamp_range_to_bounds r (p.interaction.y_bounds.or (some data_y))
          p.interaction.boundary_padding
      else r
    | none =>
      let span := data_y.2 - data_y.1
      let margin := span * p.autofit_padding
      (data_y.1 - margin, data_y.2 + margin)
  (view_x, view_y, data_x, data_y)

/-- `shader.rs::InteractionMode`. -/
inductive InteractionMode where
  | idle
  | panning
  | zoomSelecting
deriving DecidableEq

/-- `shader.rs::ElasticState`; `Instant` becomes a millisecond timestamp. -/
structure ElasticState where
  from_x : Option (ℚ × ℚ)
  from_y : Option (ℚ × ℚ)
  to_x : Option (ℚ × ℚ)
  to_y : Option (ℚ × ℚ)
  start_time : ℕ
  duration_ms : ℕ
deriving DecidableEq

/-- `shader.rs::PlotterState` (modifiers reduced to the control bit the code
reads). -/
structure PlotterState where
  interaction_mode : InteractionMode
  drag_start : Option (ℚ × ℚ)
  drag_start_view : Option ViewState
  last_cursor : Option (ℚ × ℚ)
  last_click_time : Option ℕ
  modifiers_control : Bool
  zoom_select_current : Option (ℚ × ℚ)
  elastic_animation : Option ElasticState
deriving DecidableEq

/-- `iced::mouse::ScrollDelta`. -/
inductive ScrollDelta where
  | lines (y : ℚ)
  | pixels (y : ℚ)
deriving DecidableEq

/-- The events `shader.rs::update` reacts to (left mouse button only). -/
inductive PEvent where
  | modifiersChanged (control : Bool)
  | buttonPressed
  | buttonReleased
  | cursorMoved (position : ℚ × ℚ)
  | wheelScrolled (delta : ScrollDelta)
deriving DecidableEq

/-- `iced::widget::shader::Action`: what `update` hands back to the host — an
optionally published new `ViewState` (the argument of
`Action::publish((on_change)(v))`), plus the capture and redraw flags. -/
structure PAction where
  publish : Option ViewState
  capture : Bool
  redraw : Bool
deriving DecidableEq

/-- `shader::Action::capture()`. -/
def PAction.captureOnly : PAction := ⟨none, true, false⟩

/-- `shader.rs::update` (the `shader::Program` impl for `Plotter`), as a pure
function.  Extra inputs stand for the source's environment: `expQ` for
`f32::exp`, `bounds` for the widget rectangle, `viewX`/`viewY` for the ranges
the source obtains from `self.resolve_view_ranges()` (this snapshot of
`shader.rs` calls it without the `enforce_bounds` argument that `plotter.rs`
declares, so the resolved ranges are parameters here), `cursor` for
`cursor.position_in(bounds)` (relative coordinates) and `now` for
`Instant::now()` in ms.  Returns the updated session state and the optional
action (`none` = the event is not handled). -/
def update (expQ : ℚ → ℚ) (p : Plotter) (bounds : Rect) (viewX viewY : ℚ × ℚ)
    (cursor : Option (ℚ × ℚ)) (now : ℕ) (state : PlotterState) (event : PEvent) :
    PlotterState × Option PAction :=
  let interaction := p.interaction
  let has_any_interaction := interaction.pan_x || interaction.pan_y ||
    interaction.zoom_x || interaction.zoom_y || interaction.double_click_to_fit ||
    interaction.zoom_select
  if !has_any_interaction then (state, none)
  else
    let padding := p.padding
    match state.elastic_animation with
    | some anim =>
      -- elastic spring-back tick: runs on every event while the record is Some
      let elapsed := now - anim.start_time
      if anim.duration_ms ≤ elapsed then
        -- animation complete: snap to target
        let nv1 : ViewState :=
          match anim.from_x, anim.to_x with
          | some _, some tgt => { p.view_state with x_range := some tgt }
          | _, _ => p.view_state
        let nv2 : ViewState :=
          match anim.from_y, anim.to_y with
          | some _, some tgt => { nv1 with y_range := some tgt }
          | _, _ => nv1
        let state1 := { state with elastic_animation := none }
        if p.has_on_view_change then
          (state1, some ⟨some nv2, false, false⟩)
        else
          (state1, none)
      else
        -- still animating: interpolate and request the next frame
        let t : ℚ := (elapsed : ℚ) / (anim.duration_ms : ℚ)
        let nv1 : ViewState :=
          match anim.from_x, anim.to_x with
          | some f, some tgt =>
            { p.view_state with x_range := some (lerp_range f tgt t) }
          | _, _ => p.view_state
        let nv2 : ViewState :=
          match anim.from_y, anim.to_y with
          | some f, some tgt => { nv1 with y_range := some (lerp_range f tgt t) }
          | _, _ => nv1
        if p.has_on_view_change then
          (state, some ⟨some nv2, false, false⟩)
        else
          (state, some ⟨none, false, true⟩)
    | none =>
      match event with
      | .modifiersChanged control =>
        ({ state with modifiers_control := control }, none)
      | .buttonPressed =>
        match cursor with
        | none => (state, none)
        | some pos =>
          -- after the double-click check the source falls through to the
          -- ctrl+zoom-select and pan-start branches
          let afterPress : PlotterState → PlotterState × Option PAction := fun st =>
            if interaction.zoom_select ∧ st.modifiers_control then
              ({ st with
                  interaction_mode := .zoomSelecting
                  drag_start := some pos
                  zoom_select_current := some pos }, some PAction.captureOnly)
            else if interaction.pan_x ∨ interaction.pan_y then
              ({ st with
                  elastic_animation := none
                  interaction_mode := .panning
                  drag_start := some pos
                  drag_start_view := some ⟨some viewX, some viewY⟩ },
               some PAction.captureOnly)
            else (st, none)
          if interaction.double_click_to_fit then
            match state.last_click_time with
            | some last =>
              if now - last < 300 then
                let state1 := { state with
                  last_click_time := none
                  interaction_mode := .idle
                  elastic_animation := none }
                if p.has_on_view_change then
                  let nv : ViewState :=
                    ⟨if interaction.pan_x ∨ interaction.zoom_x then none
                      else p.view_state.x_range,
                     if interaction.pan_y ∨ interaction.zoom_y then none
                      else p.view_state.y_range⟩
                  (state1, some ⟨some nv, true, false⟩)
                else (state1, some PAction.captureOnly)
              else afterPress { state with last_click_time := some now }
            | none => afterPress { state with last_click_time := some now }
          else afterPress state
      | .buttonReleased =>
        match state.interaction_mode with
        | .panning =>
          let state1 := { state with
            interaction_mode := .idle
            drag_start := none
            drag_start_view := none }
          if interaction.elastic then
            let current_x := p.view_state.x_range.getD viewX
            let current_y := p.view_state.y_range.getD viewY
            let x_out := interaction.pan_x &&
              is_out_of_bounds current_x interaction.x_bounds
                interaction.boundary_padding
            let y_out := interaction.pan_y &&
              is_out_of_bounds current_y interaction.y_bounds
                interaction.boundary_padding
            if x_out || y_out then
              let target_x := if x_out then
                  some (clamp_range_to_bounds current_x interaction.x_bounds
                    interaction.boundary_padding)
                else none
              let target_y := if y_out then
                  some (clamp_range_to_bounds current_y interaction.y_bounds
                    interaction.boundary_padding)
                else none
              let anim1 : ElasticState :=
                ⟨if x_out then some current_x else none,
                 if y_out then some current_y else none,
                 target_x, target_y, now, interaction.elastic_duration_ms⟩
              ({ state1 with elastic_animation := some anim1 },
               some ⟨none, true, true⟩)
            else (state1, some PAction.captureOnly)
          else (state1, some PAction.captureOnly)
        | .zoomSelecting =>
          match state.drag_start, state.zoom_select_current with
          | some dstart, some current =>
            let xy0 := screen_to_data (dstart.1 + bounds.x, dstart.2 + bounds.y)
              bounds viewX viewY padding
            let xy1 := screen_to_data (current.1 + bounds.x, current.2 + bounds.y)
              bounds viewX viewY padding
            let dx := |current.1 - dstart.1|
            let dy := |current.2 - dstart.2|
            let state1 := { state with
              interaction_mode := .idle
              drag_start := none
              zoom_select_current := none }
            if 5 < dx ∨ 5 < dy then
              let nv1 : ViewState := if interaction.zoom_x ∧ 5 < dx then
                  { p.view_state with
                    x_range := some (min xy0.1 xy1.1, max xy0.1 xy1.1) }
                else p.view_state
              let nv2 : ViewState := if interaction.zoom_y ∧ 5 < dy then
                  { nv1 with y_range := some (min xy0.2 xy1.2, max xy0.2 xy1.2) }
                else nv1
              if p.has_on_view_change then
                (state1, some ⟨some nv2, true, false⟩)
              else
                (state1, some PAction.captureOnly)
            else
              (state1, some PAction.captureOnly)
          | _, _ =>
            ({ state with
                interaction_mode := .idle
                drag_start := none
                zoom_select_current := none }, some PAction.captureOnly)
        | .idle => (state, none)
      | .cursorMoved position =>
        let state0 := { state with last_cursor := some position }
        match state0.interaction_mode with
        | .panning =>
          match state0.drag_start, state0.drag_start_view with
          | some dstart, some start_view =>
            -- `start_view.x_range.unwrap()`: a pan start always records both
            -- ranges as Some, so the default is never taken
            let start_view_x := start_view.x_range.getD (0, 0)
            let start_view_y := start_view.y_range.getD (0, 0)
            let plot_width := bounds.width - 2 * padding
            let plot_height := bounds.height - 2 * padding
            let current := (position.1 - bounds.x, position.2 - bounds.y)
            let dx_screen := current.1 - dstart.1
            let dy_screen := current.2 - dstart.2
            let dx_data := -dx_screen / plot_width * (start_view_x.2 - start_view_x.1)
            let dy_data := dy_screen / plot_height * (start_view_y.2 - start_view_y.1)
            let nv1 : ViewState := if interaction.pan_x then
                let raw := (start_view_x.1 + dx_data, start_view_x.2 + dx_data)
                let new_x := if interaction.elastic then
                    apply_elastic_resistance expQ raw interaction.x_bounds
                      interaction.boundary_padding interaction.elastic_limit
                  else
                    clamp_range_to_bounds raw interaction.x_bounds
                      interaction.boundary_padding
                { p.view_state with x_range := some new_x }
              else p.view_state
            let nv2 : ViewState := if interaction.pan_y then
                let raw := (start_view_y.1 + dy_data, start_view_y.2 + dy_data)
                let new_y := if interaction.elastic then
                    apply_elastic_resistance expQ raw interaction.y_bounds
                      interaction.boundary_padding interaction.elastic_limit
                  else
                    clamp_range_to_bounds raw interaction.y_bounds
                      interaction.boundary_padding
                { nv1 with y_range := some new_y }
              else nv1
            if p.has_on_view_change then
              (state0, some ⟨some nv2, true, false⟩)
            else (state0, some PAction.captureOnly)
          | _, _ => (state0, none)
        | .zoomSelecting =>
          let rel := (position.1 - bounds.x, position.2 - bounds.y)
          ({ state0 with zoom_select_current := some rel },
           some ⟨none, true, true⟩)
        | .idle => (state0, none)
      | .wheelScrolled delta =>
        if !interaction.zoom_x && !interaction.zoom_y then (state, none)
        else
          match cursor with
          | none => (state, none)
          | some cursor_pos =>
            let scroll_y := match delta with
              | .lines y => y
              | .pixels y => y / 50
            if |scroll_y| < f32EPS then (state, none)
            else
              -- cancel any elastic animation (only reachable with the record
              -- already None: the tick above returns first)
              let state1 := { state with elastic_animation := none }
              let factor := qclamp (1 - scroll_y * interaction.zoom_speed) (1/10) 10
              let cxy := screen_to_data cursor_pos bounds viewX viewY padding
              let nv1 : ViewState := if interaction.zoom_x then
                  let new_lo := cxy.1 - (cxy.1 - viewX.1) * factor
                  let new_hi := cxy.1 + (viewX.2 - cxy.1) * factor
                  { p.view_state with x_range := some (clamp_range_to_bounds
                      (new_lo, new_hi) interaction.x_bounds
                      interaction.boundary_padding) }
                else p.view_state
              let nv2 : ViewState := if interaction.zoom_y then
                  let new_lo := cxy.2 - (cxy.2 - viewY.1) * factor
                  let new_hi := cxy.2 + (viewY.2 - cxy.2) * factor
                  { nv1 with y_range := some (clamp_range_to_bounds
                      (new_lo, new_hi) interaction.y_bounds
                      interaction.boundary_padding) }
                else nv1
              let nv3 : ViewState :=
                if !interaction.zoom_x && p.view_state.x_range.isNone then
                  { nv2 with x_range := none }
                else nv2
              let nv4 : ViewState :=
                if !interaction.zoom_y && p.view_state.y_range.isNone then
                  { nv3 with y_range := none }
                else nv3
              if p.has_on_view_change then
                (state1, some ⟨some nv4, true, false⟩)
              else (state1, some PAction.captureOnly)


-- ================ Theorems ================

/-- Unfolding equation for `tickLoop`. -/
theorem tickLoop_eq (v limit step : ℚ) :
    tickLoop v limit step =
      if v ≤ limit ∧ 0 < step then v :: tickLoop (v + step) limit step
      else [] := by
  rw [tickLoop.eq_def]
  split <;> simp_all

/-- Closed form of the tick loop: an arithmetic progression whose length is
determined by the floor of the span over the step. -/
theorem tickLoop_closed (limit step : ℚ) (hs : 0 < step) :
    ∀ (n : ℕ) (v : ℚ), (⌊(limit - v) / step⌋ + 1).toNat = n →
      tickLoop v limit step = (List.range n).map (fun i : ℕ => v + (i : ℚ) * step) := by
  have hne : step ≠ 0 := ne_of_gt hs
  intro n
  induction n with
  | zero =>
    intro v hv
    rw [tickLoop_eq]
    have hfloor : ⌊(limit - v) / step⌋ + 1 ≤ 0 := by omega
    have hneg : (limit - v) / step < 0 := by
      by_contra hcon
      push_neg at hcon
      have := Int.floor_nonneg.mpr hcon
      omega
    have hlt : limit < v := by
      rcases div_neg_iff.mp hneg with ⟨_, hstep⟩ | ⟨hnum, _⟩
      · linarith
      · linarith
    rw [if_neg]
    · simp
    · rintro ⟨hle, -⟩
      linarith
  | succ n ih =>
    intro v hv
    have hvle : v ≤ limit := by
      by_contra hcon
      push_neg at hcon
      have hneg : (limit - v) / step < 0 :=
        div_neg_of_neg_of_pos (by linarith) hs
      have hlt : ⌊(limit - v) / step⌋ < 0 :=
        Int.floor_lt.mpr (by exact_mod_cast hneg)
      omega
    rw [tickLoop_eq, if_pos ⟨hvle, hs⟩]
    have hnext : (⌊(limit - (v + step)) / step⌋ + 1).toNat = n := by
      have h1 : (limit - (v + step)) / step = (limit - v) / step - 1 := by
        field_simp
        ring
      have h2 : ⌊(limit - v) / step - 1⌋ = ⌊(limit - v) / step⌋ - 1 := by
        exact_mod_cast Int.floor_sub_int ((limit - v) / step) 1
      rw [h1, h2]
      omega
    rw [ih (v + step) hnext, List.range_succ_eq_map]
    simp only [List.map_cons, List.map_map, Function.comp_def]
    congr 1
    · simp
    · apply List.map_congr_left
      intro i _
      push_cast
      ring



/-- Claim C2: for every input range with lo ≤ hi, bounds with b_lo ≤ b_hi and a
nonnegative padding fraction, `clamp_range_to_bounds` yields a range contained in
the padded bounds; when the input span fits the padded span the output keeps
exactly the input span, and when it is wider the output is centered on the
padded bounds with the padded span. -/
theorem clamped_range_containment (lo hi b_lo b_hi p : ℚ)
    (hlo : lo ≤ hi) (hb : b_lo ≤ b_hi) (hp : 0 ≤ p) :
    (b_lo - (b_hi - b_lo) * p ≤
        (clamp_range_to_bounds (lo, hi) (some (b_lo, b_hi)) p).1 ∧
      (clamp_range_to_bounds (lo, hi) (some (b_lo, b_hi)) p).2 ≤
        b_hi + (b_hi - b_lo) * p) ∧
    (hi - lo ≤ (b_hi + (b_hi - b_lo) * p) - (b_lo - (b_hi - b_lo) * p) →
      (clamp_range_to_bounds (lo, hi) (some (b_lo, b_hi)) p).2 -
        (clamp_range_to_bounds (lo, hi) (some (b_lo, b_hi)) p).1 = hi - lo) ∧
    ((b_hi + (b_hi - b_lo) * p) - (b_lo - (b_hi - b_lo) * p) < hi - lo →
      (clamp_range_to_bounds (lo, hi) (some (b_lo, b_hi)) p).1 +
          (clamp_range_to_bounds (lo, hi) (some (b_lo, b_hi)) p).2 =
        (b_lo - (b_hi - b_lo) * p) + (b_hi + (b_hi - b_lo) * p) ∧
      (clamp_range_to_bounds (lo, hi) (some (b_lo, b_hi)) p).2 -
          (clamp_range_to_bounds (lo, hi) (some (b_lo, b_hi)) p).1 =
        (b_hi + (b_hi - b_lo) * p) - (b_lo - (b_hi - b_lo) * p)) := by
  have hpad : 0 ≤ (b_hi - b_lo) * p := mul_nonneg (by linarith) hp
  simp only [clamp_range_to_bounds]
  split_ifs with h1 h2 h3 h4 <;>
    refine ⟨⟨by simp_all <;> linarith, by simp_all <;> linarith⟩,
      fun hspan => by simp_all <;> linarith,
      fun hspan => ⟨by simp_all <;> linarith, by simp_all <;> linarith⟩⟩

/-- Witness for C2 at a concrete input. -/
theorem clamped_range_containment_witness :
    ((0:ℚ) ≤ 1 ∧ (0:ℚ) ≤ 10 ∧ (0:ℚ) ≤ 1/20) ∧
    (let pad := ((10:ℚ) - 0) * (1/20)
     let r := clamp_range_to_bounds (0, 1) (some (0, 10)) (1/20)
     (0 - pad ≤ r.1 ∧ r.2 ≤ 10 + pad) ∧
     ((1:ℚ) - 0 ≤ (10 + pad) - (0 - pad) → r.2 - r.1 = 1 - 0) ∧
     ((10 + pad) - (0 - pad) < (1:ℚ) - 0 →
       r.1 + r.2 = (0 - pad) + (10 + pad) ∧
       r.2 - r.1 = (10 + pad) - (0 - pad))) :=
  ⟨by norm_num, clamped_range_containment 0 1 0 10 (1/20) (by norm_num)
    (by norm_num) (by norm_num)⟩

/-- Shape of one run of the tick loop: it always emits the start value first,
advances by a constant positive step, and stops with the last element in
`(limit - step, limit]`. -/
theorem tickLoop_spec (start limit step : ℚ) (hs : 0 < step) (hle : start ≤ limit) :
    (tickLoop start limit step).head? = some start ∧
    List.Chain' (fun a b => b = a + step) (tickLoop start limit step) ∧
    List.Pairwise (· < ·) (tickLoop start limit step) ∧
    ∃ last, (tickLoop start limit step).getLast? = some last ∧
      last ≤ limit ∧ limit < last + step := by
  have hqnn : (0:ℚ) ≤ (limit - start) / step := div_nonneg (by linarith) hs.le
  have hfl : (0:ℤ) ≤ ⌊(limit - start) / step⌋ := Int.floor_nonneg.mpr hqnn
  set m := (⌊(limit - start) / step⌋).toNat with hm
  have hmz : ((m : ℤ) : ℚ) = ((⌊(limit - start) / step⌋ : ℤ) : ℚ) := by
    rw [hm, Int.toNat_of_nonneg hfl]
  have hN : (⌊(limit - start) / step⌋ + 1).toNat = m + 1 := by omega
  have hclosed := tickLoop_closed limit step hs (m + 1) start hN
  rw [hclosed]
  have hmono : ∀ i j : ℕ, i < j →
      start + (i : ℚ) * step < start + (j : ℚ) * step := by
    intro i j hij
    have : (i : ℚ) < (j : ℚ) := by exact_mod_cast hij
    nlinarith
  refine ⟨?_, ?_, ?_, ?_⟩
  · rw [List.range_succ_eq_map]
    simp
  · rw [List.chain'_map, List.chain'_range_succ]
    intro i _
    push_cast
    ring
  · rw [List.pairwise_map]
    exact (List.pairwise_lt_range _).imp (fun hab => hmono _ _ hab)
  · refine ⟨start + (m : ℚ) * step, ?_, ?_, ?_⟩
    · rw [List.range_succ, List.map_append]
      simp
    · have h1 : ((⌊(limit - start) / step⌋ : ℤ) : ℚ) ≤ (limit - start) / step :=
        Int.floor_le _
      have h2 : (m : ℚ) * step ≤ (limit - start) / step * step := by
        have : (m : ℚ) ≤ (limit - start) / step := by
          rw [show ((m : ℕ) : ℚ) = ((m : ℤ) : ℚ) by push_cast; ring, hmz]
          exact h1
        nlinarith
      have h3 : (limit - start) / step * step = limit - start :=
        div_mul_cancel₀ _ (ne_of_gt hs)
      linarith
    · have h1 : (limit - start) / step < ((⌊(limit - start) / step⌋ : ℤ) : ℚ) + 1 :=
        Int.lt_floor_add_one _
      have h2 : (limit - start) / step * step = limit - start :=
        div_mul_cancel₀ _ (ne_of_gt hs)
      have h3 : (limit - start) / step * step <
          (((⌊(limit - start) / step⌋ : ℤ) : ℚ) + 1) * step := by
        nlinarith
      have h4 : ((m : ℕ) : ℚ) = ((m : ℤ) : ℚ) := by push_cast; ring
      rw [h4, hmz]
      nlinarith

/-- Claim C4 (amended): for every `lo < hi` whose span is at least `f32::EPSILON`,
`compute_ticks` returns a strictly ascending sequence with constant spacing of
the form 1, 2 or 5 times a power of ten, whose first element is ≤ lo and whose
last element lands in the half-open window `(hi + step/1000 - step, hi + step/1000]`
(so it can fall short of `hi` by up to one step); a range whose span is below
`f32::EPSILON` yields exactly one tick equal to the low input value. -/
theorem compute_ticks_spec (lo hi : ℚ) (cfg : TickConfig) :
    (lo < hi → f32EPS ≤ hi - lo →
      ∃ step : ℚ, 0 < step ∧
        (∃ k : ℤ, step = 10 ^ k ∨ step = 2 * 10 ^ k ∨ step = 5 * 10 ^ k) ∧
        List.Chain' (fun a b => b = a + step) (compute_ticks lo hi cfg) ∧
        List.Pairwise (· < ·) (compute_ticks lo hi cfg) ∧
        (∃ first, (compute_ticks lo hi cfg).head? = some first ∧ first ≤ lo) ∧
        (∃ last, (compute_ticks lo hi cfg).getLast? = some last ∧
          last ≤ hi + step * (1/1000) ∧ hi + step * (1/1000) < last + step)) ∧
    (|hi - lo| < f32EPS → compute_ticks lo hi cfg = [lo]) := by
  constructor
  · intro hlt hEps
    have hspan : (0:ℚ) < hi - lo := by linarith
    have hepspos : (0:ℚ) < f32EPS := by norm_num [f32EPS]
    have habs : ¬ (|hi - lo| < f32EPS) := not_lt.mpr (by rwa [abs_of_pos hspan])
    have htpos : (0:ℚ) < ((max ((cfg.min_ticks + cfg.max_ticks) / 2) 2 : ℕ) : ℚ) := by
      have h2 : (2:ℕ) ≤ max ((cfg.min_ticks + cfg.max_ticks) / 2) 2 := le_max_right _ _
      have : (0:ℕ) < max ((cfg.min_ticks + cfg.max_ticks) / 2) 2 := by omega
      exact_mod_cast this
    set target : ℚ := ((max ((cfg.min_ticks + cfg.max_ticks) / 2) 2 : ℕ) : ℚ) with htarget
    set rough := (hi - lo) / target with hrough
    have hroughpos : 0 < rough := div_pos hspan htpos
    set mag : ℚ := (10:ℚ) ^ (Int.log 10 rough) with hmag
    have hmagpos : 0 < mag := by
      rw [hmag]
      exact zpow_pos (by norm_num) _
    set nf : ℚ := (if rough / mag ≤ 1 then 1 else if rough / mag ≤ 2 then 2
      else if rough / mag ≤ 5 then 5 else 10 : ℚ) with hnf
    have hnfpos : 0 < nf := by
      rw [hnf]
      split_ifs <;> norm_num
    set step := nf * mag with hstepdef
    have hsteppos : 0 < step := mul_pos hnfpos hmagpos
    set start := ((⌊lo / step⌋ : ℤ) : ℚ) * step with hstart
    set limit := hi + step * (1/1000) with hlimit
    have hstartle : start ≤ lo := by
      rw [hstart]
      calc ((⌊lo / step⌋ : ℤ) : ℚ) * step ≤ lo / step * step :=
        mul_le_mul_of_nonneg_right (Int.floor_le _) hsteppos.le
      _ = lo := div_mul_cancel₀ _ (ne_of_gt hsteppos)
    have hstartlim : start ≤ limit := by
      rw [hlimit]
      nlinarith
    have hct : compute_ticks lo hi cfg = tickLoop start limit step := by
      rw [hstart, hlimit, hstepdef, hnf, hmag, hrough, htarget]
      simp only [compute_ticks, if_neg habs, if_pos hlt]
    have hform : ∃ k : ℤ, step = 10 ^ k ∨ step = 2 * 10 ^ k ∨ step = 5 * 10 ^ k := by
      rw [hstepdef, hnf, hmag]
      split_ifs
      · exact ⟨Int.log 10 rough, Or.inl (by ring)⟩
      · exact ⟨Int.log 10 rough, Or.inr (Or.inl (by ring))⟩
      · exact ⟨Int.log 10 rough, Or.inr (Or.inr (by ring))⟩
      · refine ⟨Int.log 10 rough + 1, Or.inl ?_⟩
        rw [zpow_add_one₀ (by norm_num : (10:ℚ) ≠ 0)]
        ring
    obtain ⟨hhead, hchain, hpair, last, hlast, hl1, hl2⟩ :=
      tickLoop_spec start limit step hsteppos hstartlim
    refine ⟨step, hsteppos, hform, ?_, ?_, ⟨start, ?_, hstartle⟩, ⟨last, ?_, ?_, ?_⟩⟩
    · rw [hct]
      exact hchain
    · rw [hct]
      exact hpair
    · rw [hct]
      exact hhead
    · rw [hct]
      exact hlast
    · rw [← hlimit]
      exact hl1
    · rw [← hlimit]
      exact hl2
  · intro hdeg
    simp only [compute_ticks, if_pos hdeg]

/-- Witness for C4 (amended): both branches at concrete inputs. -/
theorem compute_ticks_spec_witness :
    ((0:ℚ) < 10 ∧ f32EPS ≤ (10:ℚ) - 0) ∧
    (∃ step : ℚ, 0 < step ∧
        (∃ k : ℤ, step = 10 ^ k ∨ step = 2 * 10 ^ k ∨ step = 5 * 10 ^ k) ∧
        List.Chain' (fun a b => b = a + step) (compute_ticks 0 10 TickConfig.default) ∧
        List.Pairwise (· < ·) (compute_ticks 0 10 TickConfig.default) ∧
        (∃ first, (compute_ticks 0 10 TickConfig.default).head? = some first ∧
          first ≤ 0) ∧
        (∃ last, (compute_ticks 0 10 TickConfig.default).getLast? = some last ∧
          last ≤ 10 + step * (1/1000) ∧ 10 + step * (1/1000) < last + step)) ∧
    (|(1:ℚ) - 1| < f32EPS ∧ compute_ticks 1 1 TickConfig.default = [1]) :=
  ⟨⟨by norm_num, by norm_num [f32EPS]⟩,
   (compute_ticks_spec 0 10 TickConfig.default).1 (by norm_num) (by norm_num [f32EPS]),
   by norm_num [f32EPS],
   (compute_ticks_spec 1 1 TickConfig.default).2 (by norm_num [f32EPS])⟩

/-- Claim C4 counterexample: at lo = 0, hi = 21/2 (= 10.5, exactly representable
in `f32`, with every intermediate of the source's tick computation exact), the
returned ticks are [0, 2, 4, 6, 8, 10]: the last tick 10 is strictly below hi,
refuting the claimed coverage (last element ≥ hi). -/
theorem compute_ticks_coverage_cex :
    (0:ℚ) < 21/2 ∧ f32EPS ≤ (21:ℚ)/2 - 0 ∧
    compute_ticks 0 (21/2) TickConfig.default = [0, 2, 4, 6, 8, 10] ∧
    (compute_ticks 0 (21/2) TickConfig.default).getLast? = some 10 ∧
    (10:ℚ) < 21/2 := by
  have h1 : compute_ticks 0 (21/2) TickConfig.default = tickLoop 0 (5251/500) 2 := by
    simp only [compute_ticks, TickConfig.default]
    norm_num [f32EPS]
    rw [show Int.log 10 ((3:ℚ)/2) = 0 from by
      rw [Int.log_of_one_le_right _ (by norm_num)]
      rw [show ⌊(3:ℚ)/2⌋₊ = 1 by norm_num [Nat.floor_eq_iff]]
      norm_num]
    norm_num
    intro h
    rw [abs_of_pos (by norm_num : (0:ℚ) < 21/2)] at h
    norm_num at h
  have h2 : tickLoop 0 (5251/500) 2 = (List.range 6).map (fun i : ℕ => 0 + (i:ℚ) * 2) := by
    apply tickLoop_closed _ _ (by norm_num)
    rw [show ((5251:ℚ)/500 - 0)/2 = 5251/1000 by norm_num]
    rw [show ⌊(5251:ℚ)/1000⌋ = 5 by norm_num [Int.floor_eq_iff]]
    rfl
  have heval : compute_ticks 0 (21/2) TickConfig.default = [0, 2, 4, 6, 8, 10] := by
    rw [h1, h2]
    simp [List.range_succ]
    norm_num
  refine ⟨by norm_num, by norm_num [f32EPS], heval, ?_, by norm_num⟩
  rw [heval]
  rfl

/-- Claim C1: while an elastic animation record is `Some`, every processed event
ticks it.  With t = elapsed_ms / duration_ms: if t ≥ 1 the published ViewState
carries exactly the animation's target range on each animated axis and the
record is cleared; otherwise each animated axis is interpolated from the
overscrolled range to the target using eased_t = 1 - (1-t)³ (so at exactly
t = duration the result equals the clamp target). -/
theorem elastic_tick_spec (expQ : ℚ → ℚ) (p : Plotter) (bounds : Rect)
    (viewX viewY : ℚ × ℚ) (cursor : Option (ℚ × ℚ)) (now : ℕ)
    (state : PlotterState) (event : PEvent) (anim : ElasticState)
    (hanim : state.elastic_animation = some anim)
    (hany : p.interaction.pan_x = true)
    (hpub : p.has_on_view_change = true) :
    ∃ a : PAction,
      (update expQ p bounds viewX viewY cursor now state event).2 = some a ∧
      ∃ v : ViewState, a.publish = some v ∧
      (if anim.duration_ms ≤ now - anim.start_time then
        (update expQ p bounds viewX viewY cursor now state event).1.elastic_animation
          = none ∧
        v.x_range = (match anim.from_x, anim.to_x with
          | some _, some tgt => some tgt
          | _, _ => p.view_state.x_range) ∧
        v.y_range = (match anim.from_y, anim.to_y with
          | some _, some tgt => some tgt
          | _, _ => p.view_state.y_range)
      else
        (update expQ p bounds viewX viewY cursor now state event).1 = state ∧
        (let t : ℚ := ((now - anim.start_time : ℕ) : ℚ) / (anim.duration_ms : ℚ)
         let e : ℚ := 1 - (1 - t) ^ 3
         v.x_range = (match anim.from_x, anim.to_x with
          | some f, some tgt =>
            some (f.1 + (tgt.1 - f.1) * e, f.2 + (tgt.2 - f.2) * e)
          | _, _ => p.view_state.x_range) ∧
         v.y_range = (match anim.from_y, anim.to_y with
          | some f, some tgt =>
            some (f.1 + (tgt.1 - f.1) * e, f.2 + (tgt.2 - f.2) * e)
          | _, _ => p.view_state.y_range))) := by
  have hhas : (p.interaction.pan_x || p.interaction.pan_y || p.interaction.zoom_x ||
      p.interaction.zoom_y || p.interaction.double_click_to_fit ||
      p.interaction.zoom_select) = true := by
    rw [hany]
    simp
  obtain ⟨fx, fy, tx, ty, stime, dur⟩ := anim
  by_cases hdone : dur ≤ now - stime
  · rcases fx with _ | fx <;> rcases tx with _ | tx <;>
      rcases fy with _ | fy <;> rcases ty with _ | ty <;>
      simp [update, hanim, hhas, hpub, hdone]
  · have hlt : now - stime < dur := by omega
    have hdpos : 0 < dur := by omega
    have ht0 : (0:ℚ) ≤ ((now - stime : ℕ) : ℚ) / (dur : ℚ) := by positivity
    have ht1 : ((now - stime : ℕ) : ℚ) / (dur : ℚ) < 1 := by
      rw [div_lt_one (by exact_mod_cast hdpos)]
      exact_mod_cast hlt
    have hqc : qclamp (((now - stime : ℕ) : ℚ) / (dur : ℚ)) 0 1
        = ((now - stime : ℕ) : ℚ) / (dur : ℚ) := by
      unfold qclamp
      rw [if_neg (by linarith), if_neg (by linarith)]
    rcases fx with _ | fx <;> rcases tx with _ | tx <;>
      rcases fy with _ | fy <;> rcases ty with _ | ty <;>
      simp [update, hanim, hhas, hpub, hdone, lerp_range, ease_out_cubic, hqc]

/-- Witness for C1 at a concrete input (animation halfway through, any event). -/
theorem elastic_tick_spec_witness :
    ((⟨.idle, none, none, none, none, false, none,
        some ⟨some (-2, 8), none, some (0, 10), none, 0, 200⟩⟩ :
          PlotterState).elastic_animation =
        some ⟨some (-2, 8), none, some (0, 10), none, 0, 200⟩ ∧
      InteractionConfig.default.pan_x = true ∧
      (Plotter.mk [] [] ⟨some (0, 10), none⟩ InteractionConfig.default 50 (1/20)
        true).has_on_view_change = true) ∧
    (∃ a : PAction, ∃ v : ViewState,
      (update id (Plotter.mk [] [] ⟨some (0, 10), none⟩ InteractionConfig.default
          50 (1/20) true) ⟨0, 0, 500, 400⟩ (0, 10) (0, 5) none 100
        (⟨.idle, none, none, none, none, false, none,
          some ⟨some (-2, 8), none, some (0, 10), none, 0, 200⟩⟩ : PlotterState)
        PEvent.buttonReleased).2 = some a ∧ a.publish = some v) := by
  refine ⟨⟨rfl, rfl, rfl⟩, ?_⟩
  obtain ⟨a, ha, v, hv, -⟩ := elastic_tick_spec id
    (Plotter.mk [] [] ⟨some (0, 10), none⟩ InteractionConfig.default 50 (1/20) true)
    ⟨0, 0, 500, 400⟩ (0, 10) (0, 5) none 100
    (⟨.idle, none, none, none, none, false, none,
      some ⟨some (-2, 8), none, some (0, 10), none, 0, 200⟩⟩ : PlotterState)
    PEvent.buttonReleased
    ⟨some (-2, 8), none, some (0, 10), none, 0, 200⟩ rfl rfl rfl
  exact ⟨a, v, ha, hv⟩

/-- Claim C3 is violated by the code: while an elastic animation is in flight
(here halfway through, t = 1/2), a wheel-scroll zoom event is short-circuited
by the animation tick that runs before the event match.  The published
ViewState is the ease-out interpolation (-1/4, 39/4), the animation record is
retained, and the result differs from the wheel-zoom output (0, 9) that the
(unreachable while animating) `WheelScrolled` arm would compute and whose code
clears the record. -/
theorem wheel_during_elastic_cex :
    (update id
        (Plotter.mk [] [] ⟨some (0, 10), none⟩ InteractionConfig.default 50 (1/20)
          true) ⟨0, 0, 500, 400⟩ (0, 10) (0, 5) (some (50, 50)) 100
        (⟨.idle, none, none, none, none, false, none,
          some ⟨some (-2, 8), none, some (0, 10), none, 0, 200⟩⟩ : PlotterState)
        (PEvent.wheelScrolled (ScrollDelta.lines 1))).1.elastic_animation =
      some ⟨some (-2, 8), none, some (0, 10), none, 0, 200⟩ ∧
    (update id
        (Plotter.mk [] [] ⟨some (0, 10), none⟩ InteractionConfig.default 50 (1/20)
          true) ⟨0, 0, 500, 400⟩ (0, 10) (0, 5) (some (50, 50)) 100
        (⟨.idle, none, none, none, none, false, none,
          some ⟨some (-2, 8), none, some (0, 10), none, 0, 200⟩⟩ : PlotterState)
        (PEvent.wheelScrolled (ScrollDelta.lines 1))).2 =
      some ⟨some ⟨some (-1/4, 39/4), none⟩, false, false⟩ ∧
    (clamp_range_to_bounds
        (let cx := (screen_to_data (50, 50) ⟨0, 0, 500, 400⟩ (0, 10) (0, 5) 50).1
         let factor := qclamp (1 - 1 * InteractionConfig.default.zoom_speed)
           (1/10) 10
         (cx - (cx - 0) * factor, cx + (10 - cx) * factor))
        InteractionConfig.default.x_bounds
        InteractionConfig.default.boundary_padding) = (0, 9) ∧
    ((-1/4 : ℚ), (39/4 : ℚ)) ≠ ((0 : ℚ), (9 : ℚ)) := by
  refine ⟨?_, ?_, ?_, by norm_num⟩
  · simp [update, InteractionConfig.default]
  · simp [update, InteractionConfig.default, lerp_range, ease_out_cubic, qclamp]
    norm_num
  · simp [clamp_range_to_bounds, screen_to_data, InteractionConfig.default, qclamp]
    norm_num

/-- Claim C8: on button-release while zoom-selecting, for each axis enabled for
zoom whose selection rectangle spans more than 5 screen pixels, the published
ViewState sets that axis's range to the (min, max) of the two corners converted
to data space via `screen_to_data`; axes not enabled for zoom, or with spans of
at most 5 px, keep their previous value; a rectangle degenerate to (near) a
point publishes nothing — a silent no-op that just resets the selection. -/
theorem zoom_select_release_spec (expQ : ℚ → ℚ) (p : Plotter) (bounds : Rect)
    (viewX viewY : ℚ × ℚ) (cursor : Option (ℚ × ℚ)) (now : ℕ)
    (state : PlotterState) (dstart current : ℚ × ℚ)
    (hmode : state.interaction_mode = .zoomSelecting)
    (hds : state.drag_start = some dstart)
    (hcur : state.zoom_select_current = some current)
    (hanim : state.elastic_animation = none)
    (hsel : p.interaction.zoom_select = true)
    (hpub : p.has_on_view_change = true) :
    (update expQ p bounds viewX viewY cursor now state
        PEvent.buttonReleased).1.interaction_mode = .idle ∧
    (update expQ p bounds viewX viewY cursor now state
        PEvent.buttonReleased).1.drag_start = none ∧
    (update expQ p bounds viewX viewY cursor now state
        PEvent.buttonReleased).1.zoom_select_current = none ∧
    (if 5 < |current.1 - dstart.1| ∨ 5 < |current.2 - dstart.2| then
      ∃ v : ViewState,
        (update expQ p bounds viewX viewY cursor now state
          PEvent.buttonReleased).2 = some ⟨some v, true, false⟩ ∧
        v.x_range = (if p.interaction.zoom_x ∧ 5 < |current.1 - dstart.1| then
            some (min (screen_to_data (dstart.1 + bounds.x, dstart.2 + bounds.y)
                    bounds viewX viewY p.padding).1
                  (screen_to_data (current.1 + bounds.x, current.2 + bounds.y)
                    bounds viewX viewY p.padding).1,
              max (screen_to_data (dstart.1 + bounds.x, dstart.2 + bounds.y)
                    bounds viewX viewY p.padding).1
                  (screen_to_data (current.1 + bounds.x, current.2 + bounds.y)
                    bounds viewX viewY p.padding).1)
          else p.view_state.x_range) ∧
        v.y_range = (if p.interaction.zoom_y ∧ 5 < |current.2 - dstart.2| then
            some (min (screen_to_data (dstart.1 + bounds.x, dstart.2 + bounds.y)
                    bounds viewX viewY p.padding).2
                  (screen_to_data (current.1 + bounds.x, current.2 + bounds.y)
                    bounds viewX viewY p.padding).2,
              max (screen_to_data (dstart.1 + bounds.x, dstart.2 + bounds.y)
                    bounds viewX viewY p.padding).2
                  (screen_to_data (current.1 + bounds.x, current.2 + bounds.y)
                    bounds viewX viewY p.padding).2)
          else p.view_state.y_range)
    else
      (update expQ p bounds viewX viewY cursor now state
        PEvent.buttonReleased).2 = some PAction.captureOnly) := by
  have hhas : (p.interaction.pan_x || p.interaction.pan_y || p.interaction.zoom_x ||
      p.interaction.zoom_y || p.interaction.double_click_to_fit ||
      p.interaction.zoom_select) = true := by
    rw [hsel]
    simp
  by_cases hbig : 5 < |current.1 - dstart.1| ∨ 5 < |current.2 - dstart.2|
  · by_cases hzx : p.interaction.zoom_x = true ∧ 5 < |current.1 - dstart.1| <;>
      by_cases hzy : p.interaction.zoom_y = true ∧ 5 < |current.2 - dstart.2| <;>
      simp [update, hanim, hmode, hds, hcur, hhas, hpub, hbig, hzx, hzy]
  · simp [update, hanim, hmode, hds, hcur, hhas, hpub, hbig]

/-- Witness for C8 at the spec's zoom-select scenario: a drag from (100,100) to
(300,250) over view_x=(0,10), view_y=(0,5), padding=50, viewport 500×400. -/
theorem zoom_select_release_spec_witness :
    ((⟨.zoomSelecting, some (100, 100), none, none, none, false, some (300, 250),
        none⟩ : PlotterState).interaction_mode = .zoomSelecting ∧
      (⟨.zoomSelecting, some (100, 100), none, none, none, false, some (300, 250),
        none⟩ : PlotterState).drag_start = some (100, 100) ∧
      (⟨.zoomSelecting, some (100, 100), none, none, none, false, some (300, 250),
        none⟩ : PlotterState).zoom_select_current = some (300, 250)) ∧
    (update id (Plotter.mk [] [] ⟨none, none⟩
        ⟨true, true, true, true, none, none, 1/20, 1/10, true, true, true, 3/10,
          200⟩ 50 (1/20) true) ⟨0, 0, 500, 400⟩ (0, 10) (0, 5) none 0
      (⟨.zoomSelecting, some (100, 100), none, none, none, false, some (300, 250),
        none⟩ : PlotterState)
      PEvent.buttonReleased).1.interaction_mode = .idle := by
  refine ⟨⟨rfl, rfl, rfl⟩, ?_⟩
  exact (zoom_select_release_spec id (Plotter.mk [] [] ⟨none, none⟩
    ⟨true, true, true, true, none, none, 1/20, 1/10, true, true, true, 3/10, 200⟩
    50 (1/20) true) ⟨0, 0, 500, 400⟩ (0, 10) (0, 5) none 0
    (⟨.zoomSelecting, some (100, 100), none, none, none, false, some (300, 250),
      none⟩ : PlotterState) (100, 100) (300, 250)
    rfl rfl rfl rfl rfl rfl).1

/-- Claim C9: with `x_bounds = None` both elastic resistance and hard clamping
are the identity, so panning by a screen delta `+d` and back by `-d` within one
drag (deltas always measured against the drag-start view snapshot) publishes an
x range exactly equal to the drag-start range. -/
theorem pan_round_trip_spec (expQ : ℚ → ℚ) (p : Plotter) (bounds : Rect)
    (viewX viewY : ℚ × ℚ) (cursor : Option (ℚ × ℚ)) (now : ℕ)
    (state : PlotterState) (anchor d : ℚ × ℚ) (r ry : ℚ × ℚ)
    (hmode : state.interaction_mode = .panning)
    (hds : state.drag_start = some anchor)
    (hdv : state.drag_start_view = some ⟨some r, some ry⟩)
    (hanim : state.elastic_animation = none)
    (hpanx : p.interaction.pan_x = true)
    (hbx : p.interaction.x_bounds = none)
    (hpub : p.has_on_view_change = true) :
    ∃ v : ViewState,
      (update expQ p bounds viewX viewY cursor now
        (update expQ p bounds viewX viewY cursor now state
          (PEvent.cursorMoved
            (bounds.x + anchor.1 + d.1, bounds.y + anchor.2 + d.2))).1
        (PEvent.cursorMoved (bounds.x + anchor.1, bounds.y + anchor.2))).2 =
        some ⟨some v, true, false⟩ ∧
      v.x_range = some r := by
  have hhas : (p.interaction.pan_x || p.interaction.pan_y || p.interaction.zoom_x ||
      p.interaction.zoom_y || p.interaction.double_click_to_fit ||
      p.interaction.zoom_select) = true := by
    rw [hpanx]
    simp
  have hs1 : (update expQ p bounds viewX viewY cursor now state
      (PEvent.cursorMoved
        (bounds.x + anchor.1 + d.1, bounds.y + anchor.2 + d.2))).1 =
      { state with last_cursor := some (bounds.x + anchor.1 + d.1, bounds.y + anchor.2 + d.2) } := by
    by_cases hpy : p.interaction.pan_y = true <;>
      simp [update, hanim, hmode, hds, hdv, hhas, hpub, hpy, hpanx]
  rw [hs1]
  have hzero : bounds.x + anchor.1 - bounds.x - anchor.1 = 0 := by ring
  by_cases hel : p.interaction.elastic = true <;>
    by_cases hpy : p.interaction.pan_y = true <;>
    simp [update, hanim, hmode, hds, hdv, hhas, hpub, hel, hpy, hbx, hzero,
      hpanx, apply_elastic_resistance, clamp_range_to_bounds] <;>
    refine ⟨?_, ?_⟩ <;>
    ring_nf <;>
    simp

/-- Witness for C9: a pan of +(30,-20) and back with the default interaction
config (x_bounds = none) republishes the drag-start x range (0, 10). -/
theorem pan_round_trip_spec_witness :
    ((⟨.panning, some (100, 100), some ⟨some (0, 10), some (0, 5)⟩, none, none,
        false, none, none⟩ : PlotterState).interaction_mode = .panning ∧
      InteractionConfig.default.x_bounds = none) ∧
    (∃ v : ViewState,
      (update id (Plotter.mk [] [] ⟨some (0, 10), none⟩ InteractionConfig.default
          50 (1/20) true) ⟨0, 0, 500, 400⟩ (0, 10) (0, 5) none 0
        (update id (Plotter.mk [] [] ⟨some (0, 10), none⟩ InteractionConfig.default
            50 (1/20) true) ⟨0, 0, 500, 400⟩ (0, 10) (0, 5) none 0
          (⟨.panning, some (100, 100), some ⟨some (0, 10), some (0, 5)⟩, none,
            none, false, none, none⟩ : PlotterState)
          (PEvent.cursorMoved (0 + 100 + 30, 0 + 100 + -20))).1
        (PEvent.cursorMoved (0 + 100, 0 + 100))).2 = some ⟨some v, true, false⟩ ∧
      v.x_range = some (0, 10)) :=
  ⟨⟨rfl, rfl⟩,
   pan_round_trip_spec id
    (Plotter.mk [] [] ⟨some (0, 10), none⟩ InteractionConfig.default 50 (1/20) true)
    ⟨0, 0, 500, 400⟩ (0, 10) (0, 5) none 0
    (⟨.panning, some (100, 100), some ⟨some (0, 10), some (0, 5)⟩, none, none,
      false, none, none⟩ : PlotterState)
    (100, 100) (30, -20) (0, 10) (0, 5) rfl rfl rfl rfl rfl rfl rfl⟩

/-- Pointwise description of the color loop on success: the j-th output point
is the j-th input point colored by `colorOf` at its flattened index. -/
theorem applyColorAux_getElem (total : ℕ) (y_min y_max : ℚ) :
    ∀ (l : List (ℚ × ℚ × ColorMode)) (idx : ℕ) (out : List RawPoint),
      applyColorAux total y_min y_max idx l = some out →
      ∀ (j : ℕ) (q : ℚ × ℚ × ColorMode), l[j]? = some q →
        out[j]? = (colorOf total y_min y_max (idx + j) q).map
          (fun c => ⟨(q.1, q.2.1), c⟩) := by
  intro l
  induction l with
  | nil =>
    intro idx out h j q hq
    simp at hq
  | cons p rest ih =>
    intro idx out h j q hq
    simp only [applyColorAux] at h
    cases hc : colorOf total y_min y_max idx p with
    | none =>
      rw [hc] at h
      simp at h
    | some c =>
      rw [hc] at h
      cases ht : applyColorAux total y_min y_max (idx + 1) rest with
      | none =>
        rw [ht] at h
        simp at h
      | some tail =>
        rw [ht] at h
        simp at h
        cases j with
        | zero =>
          simp at hq
          subst hq
          rw [← h]
          simp [hc]
        | succ j =>
          simp at hq
          rw [← h]
          have harith : idx + 1 + j = idx + (j + 1) := by omega
          have := ih (idx + 1) tail ht j q hq
          simp only [List.getElem?_cons_succ]
          rw [this, harith]

/-- The color loop succeeds when every point's color resolution succeeds. -/
theorem applyColorAux_isSome (total : ℕ) (y_min y_max : ℚ) :
    ∀ (l : List (ℚ × ℚ × ColorMode)) (idx : ℕ),
      (∀ (j : ℕ) (q : ℚ × ℚ × ColorMode), l[j]? = some q →
        (colorOf total y_min y_max (idx + j) q).isSome) →
      ∃ out, applyColorAux total y_min y_max idx l = some out := by
  intro l
  induction l with
  | nil =>
    intro idx h
    exact ⟨[], rfl⟩
  | cons p rest ih =>
    intro idx h
    have hp := h 0 p (by simp)
    rw [Option.isSome_iff_exists] at hp
    obtain ⟨c, hc⟩ := hp
    obtain ⟨tail, ht⟩ := ih (idx + 1) (fun j q hq => by
      have harith : idx + 1 + j = idx + (j + 1) := by omega
      rw [harith]
      exact h (j + 1) q (by simpa using hq))
    have hc0 : colorOf total y_min y_max idx p = some c := by simpa using hc
    refine ⟨⟨(p.1, p.2.1), c⟩ :: tail, ?_⟩
    simp [applyColorAux, hc0, ht]

/-- Fold of `min` over a list of copies of `c` seeded with `c` is `c`. -/
theorem foldl_min_const (c : ℚ) :
    ∀ (l : List ℚ), (∀ y ∈ l, y = c) → l.foldl min c = c := by
  intro l
  induction l with
  | nil => intro h; rfl
  | cons y ys ih =>
    intro h
    have hy : y = c := h y (by simp)
    simp only [List.foldl_cons, hy, min_self]
    exact ih (fun z hz => h z (by simp [hz]))

/-- Fold of `max` over a list of copies of `c` seeded with `c` is `c`. -/
theorem foldl_max_const (c : ℚ) :
    ∀ (l : List ℚ), (∀ y ∈ l, y = c) → l.foldl max c = c := by
  intro l
  induction l with
  | nil => intro h; rfl
  | cons y ys ih =>
    intro h
    have hy : y = c := h y (by simp)
    simp only [List.foldl_cons, hy, max_self]
    exact ih (fun z hz => h z (by simp [hz]))

/-- `listMin` of a nonempty constant list. -/
theorem listMin_const (c : ℚ) (l : List ℚ) (hne : l ≠ [])
    (h : ∀ y ∈ l, y = c) : listMin l = c := by
  cases l with
  | nil => exact absurd rfl hne
  | cons y ys =>
    have hy : y = c := h y (by simp)
    simp only [listMin, hy]
    exact foldl_min_const c ys (fun z hz => h z (by simp [hz]))

/-- `listMax` of a nonempty constant list. -/
theorem listMax_const (c : ℚ) (l : List ℚ) (hne : l ≠ [])
    (h : ∀ y ∈ l, y = c) : listMax l = c := by
  cases l with
  | nil => exact absurd rfl hne
  | cons y ys =>
    have hy : y = c := h y (by simp)
    simp only [listMax, hy]
    exact foldl_max_const c ys (fun z hz => h z (by simp [hz]))

/-- The min-fold never exceeds its seed. -/
theorem foldl_min_le_init (l : List ℚ) : ∀ a : ℚ, l.foldl min a ≤ a := by
  induction l with
  | nil => intro a; simp
  | cons y ys ih =>
    intro a
    calc (y :: ys).foldl min a = ys.foldl min (min a y) := by simp
    _ ≤ min a y := ih (min a y)
    _ ≤ a := min_le_left _ _

/-- The max-fold is at least its seed. -/
theorem le_foldl_max_init (l : List ℚ) : ∀ a : ℚ, a ≤ l.foldl max a := by
  induction l with
  | nil => intro a; simp
  | cons y ys ih =>
    intro a
    calc a ≤ max a y := le_max_left _ _
    _ ≤ ys.foldl max (max a y) := ih (max a y)
    _ = (y :: ys).foldl max a := by simp

/-- On a nonempty list the seeded min-fold is at most the seeded max-fold. -/
theorem listMin_le_listMax (l : List ℚ) (hne : l ≠ []) : listMin l ≤ listMax l := by
  cases l with
  | nil => exact absurd rfl hne
  | cons y ys =>
    calc listMin (y :: ys) = ys.foldl min y := rfl
    _ ≤ y := foldl_min_le_init ys y
    _ ≤ ys.foldl max y := le_foldl_max_init ys y
    _ = listMax (y :: ys) := rfl

/-- The collected (possibly expanded) data y range always spans at least
`f32::EPSILON`, so gradient normalization never divides by zero. -/
theorem dataYRange_span (series : List PlotSeries) :
    f32EPS ≤ (dataYRange series).2 - (dataYRange series).1 := by
  rcases hpts : collectPointsWithColors series with _ | ⟨p, rest⟩
  · simp [dataYRange, hpts]
    norm_num [f32EPS]
  · have hne : ((p :: rest).map fun q => q.2.1) ≠ [] := by simp
    have hle := listMin_le_listMax _ hne
    by_cases hdeg : |listMax ((p :: rest).map fun q => q.2.1) -
        listMin ((p :: rest).map fun q => q.2.1)| < f32EPS
    · simp only [dataYRange, hpts, hdeg, if_true]
      simp only [List.map_cons] at hle
      norm_num [f32EPS]
      linarith
    · simp only [dataYRange, hpts, hdeg, if_false]
      push_neg at hdeg
      rw [abs_of_nonneg (by linarith)] at hdeg
      simpa [List.map_cons] using hdeg

/-- Claim C6 is violated by the code: an explicit-values array attached to a
series that is not first (here of length 1, equal to its own series' point
count) is indexed with the flattened point index, which is out of bounds —
geometry building panics (`none`) instead of completing with default colors. -/
theorem explicit_values_mismatch_panics_cex :
    primitivePoints
      [⟨.owned [(0, 1)], .solid ⟨1, 1, 1, 1⟩⟩,
       ⟨.owned [(0, 5)], .valueGradient ⟨0, 0, 0, 1⟩ ⟨1, 1, 1, 1⟩ (some [7])⟩] =
      none := by
  norm_num [primitivePoints, collectPointsWithColors, seriesPointList, dataYRange,
    listMin, listMax, apply_color_mode, applyColorAux, colorOf, lerp_color,
    qclamp, colorFromRgb, f32EPS]

/-- Claim C5 counterexample: with series 1 contributing y values 0 and 10 and
series 2 (ValueGradient, no explicit values) containing y values 5 and 10, the
point (0,5) of series 2 is colored with t = (5-0)/(10-0) = 1/2 (gray), not with
t = 0 from series 2's own y min/max (which would give the low color): the
normalization uses the y range over all series, so it does depend on the other
series' y values. -/
theorem valueGradient_per_series_cex :
    ∃ out, primitivePoints
        [⟨.owned [(0, 0), (0, 10)], .solid ⟨0, 0, 0, 1⟩⟩,
         ⟨.owned [(0, 5), (0, 10)], .valueGradient ⟨0, 0, 0, 1⟩ ⟨1, 1, 1, 1⟩ none⟩]
        = some out ∧
      out[2]? = some ⟨(0, 5), ⟨1/2, 1/2, 1/2, 1⟩⟩ ∧
      (⟨1/2, 1/2, 1/2, 1⟩ : Color) ≠
        lerp_color ⟨0, 0, 0, 1⟩ ⟨1, 1, 1, 1⟩
          ((5 - listMin [5, 10]) / (listMax [5, 10] - listMin [5, 10])) := by
  refine ⟨[⟨(0, 0), ⟨0, 0, 0, 1⟩⟩, ⟨(0, 10), ⟨0, 0, 0, 1⟩⟩,
    ⟨(0, 5), ⟨1/2, 1/2, 1/2, 1⟩⟩, ⟨(0, 10), ⟨1, 1, 1, 1⟩⟩], ?_, by rfl, ?_⟩
  · norm_num [primitivePoints, collectPointsWithColors, seriesPointList,
      dataYRange, listMin, listMax, apply_color_mode, applyColorAux, colorOf,
      lerp_color, qclamp, colorFromRgb, f32EPS]
  · norm_num [lerp_color, listMin, listMax, qclamp, colorFromRgb]

/-- Claim C5 (amended): for a point under ValueGradient or Colormap with no
explicit values array, the gradient parameter t normalizes the point's y value
by the data y min/max collected over ALL series in the build (after the
degenerate ±0.5 expansion), not by the containing series' own range; with an
explicit values array, that array's own min/max are used (the indexed value
being at the point's flattened index). -/
theorem apply_color_mode_global_norm (series : List PlotSeries)
    (out : List RawPoint) (hout : primitivePoints series = some out)
    (i : ℕ) (x y : ℚ) :
    (∀ low high, (collectPointsWithColors series)[i]? =
        some (x, y, ColorMode.valueGradient low high none) →
      out[i]? = some ⟨(x, y), lerp_color low high
        ((y - (dataYRange series).1) /
          ((dataYRange series).2 - (dataYRange series).1))⟩) ∧
    (∀ name, (collectPointsWithColors series)[i]? =
        some (x, y, ColorMode.colormap name none) →
      out[i]? = some ⟨(x, y), name.sample
        ((y - (dataYRange series).1) /
          ((dataYRange series).2 - (dataYRange series).1))⟩) ∧
    (∀ low high v value, (collectPointsWithColors series)[i]? =
        some (x, y, ColorMode.valueGradient low high (some v)) →
      v[i]? = some value →
      out[i]? = some ⟨(x, y), lerp_color low high
        (if |listMax v - listMin v| < f32EPS then 1/2
         else (value - listMin v) / (listMax v - listMin v))⟩) ∧
    (∀ name v value, (collectPointsWithColors series)[i]? =
        some (x, y, ColorMode.colormap name (some v)) →
      v[i]? = some value →
      out[i]? = some ⟨(x, y), name.sample
        (if |listMax v - listMin v| < f32EPS then 1/2
         else (value - listMin v) / (listMax v - listMin v))⟩) := by
  have hspan := dataYRange_span series
  have heps : (0:ℚ) < f32EPS := by norm_num [f32EPS]
  have hndeg : ¬ |(dataYRange series).2 - (dataYRange series).1| < f32EPS := by
    rw [abs_of_nonneg (by linarith)]
    linarith
  have hout2 : applyColorAux (collectPointsWithColors series).length
      (dataYRange series).1 (dataYRange series).2 0
      (collectPointsWithColors series) = some out := hout
  have hmain := applyColorAux_getElem (collectPointsWithColors series).length
    (dataYRange series).1 (dataYRange series).2 (collectPointsWithColors series)
    0 out hout2 i
  refine ⟨?_, ?_, ?_, ?_⟩
  · intro low high hpt
    have h := hmain _ hpt
    rw [h]
    simp [colorOf, hndeg]
  · intro name hpt
    have h := hmain _ hpt
    rw [h]
    simp [colorOf, hndeg]
  · intro low high v value hpt hv
    have h := hmain _ hpt
    rw [h]
    simp [colorOf, hv]
  · intro name v value hpt hv
    have h := hmain _ hpt
    rw [h]
    simp [colorOf, hv]

/-- The color loop preserves the point count. -/
theorem applyColorAux_length (total : ℕ) (y_min y_max : ℚ) :
    ∀ (l : List (ℚ × ℚ × ColorMode)) (idx : ℕ) (out : List RawPoint),
      applyColorAux total y_min y_max idx l = some out →
      out.length = l.length := by
  intro l
  induction l with
  | nil =>
    intro idx out h
    simp only [applyColorAux] at h
    cases h
    rfl
  | cons p rest ih =>
    intro idx out h
    simp only [applyColorAux] at h
    cases hc : colorOf total y_min y_max idx p with
    | none => rw [hc] at h; simp at h
    | some c =>
      rw [hc] at h
      cases ht : applyColorAux total y_min y_max (idx + 1) rest with
      | none => rw [ht] at h; simp at h
      | some tail =>
        rw [ht] at h
        simp at h
        rw [← h]
        simp [ih (idx + 1) tail ht]

/-- Witness for C5 (amended) at a concrete two-point series. -/
theorem apply_color_mode_global_norm_witness :
    (primitivePoints
        [⟨.owned [(0, 1), (0, 3)], .valueGradient ⟨0, 0, 0, 1⟩ ⟨1, 1, 1, 1⟩ none⟩] =
      some [⟨(0, 1), ⟨0, 0, 0, 1⟩⟩, ⟨(0, 3), ⟨1, 1, 1, 1⟩⟩] ∧
     (collectPointsWithColors
        [⟨.owned [(0, 1), (0, 3)],
          .valueGradient ⟨0, 0, 0, 1⟩ ⟨1, 1, 1, 1⟩ none⟩])[0]? =
      some (0, 1, ColorMode.valueGradient ⟨0, 0, 0, 1⟩ ⟨1, 1, 1, 1⟩ none)) ∧
    ([⟨(0, 1), ⟨0, 0, 0, 1⟩⟩, ⟨(0, 3), ⟨1, 1, 1, 1⟩⟩] : List RawPoint)[0]? =
      some ⟨(0, 1), lerp_color ⟨0, 0, 0, 1⟩ ⟨1, 1, 1, 1⟩
        ((1 - (dataYRange
            [⟨.owned [(0, 1), (0, 3)],
              .valueGradient ⟨0, 0, 0, 1⟩ ⟨1, 1, 1, 1⟩ none⟩]).1) /
          ((dataYRange
            [⟨.owned [(0, 1), (0, 3)],
              .valueGradient ⟨0, 0, 0, 1⟩ ⟨1, 1, 1, 1⟩ none⟩]).2 -
           (dataYRange
            [⟨.owned [(0, 1), (0, 3)],
              .valueGradient ⟨0, 0, 0, 1⟩ ⟨1, 1, 1, 1⟩ none⟩]).1))⟩ :=
  ⟨⟨by norm_num [primitivePoints, collectPointsWithColors, seriesPointList,
      dataYRange, listMin, listMax, apply_color_mode, applyColorAux, colorOf,
      lerp_color, qclamp, colorFromRgb, f32EPS], rfl⟩,
   (apply_color_mode_global_norm
      [⟨.owned [(0, 1), (0, 3)], .valueGradient ⟨0, 0, 0, 1⟩ ⟨1, 1, 1, 1⟩ none⟩]
      [⟨(0, 1), ⟨0, 0, 0, 1⟩⟩, ⟨(0, 3), ⟨1, 1, 1, 1⟩⟩]
      (by norm_num [primitivePoints, collectPointsWithColors, seriesPointList,
        dataYRange, listMin, listMax, apply_color_mode, applyColorAux, colorOf,
        lerp_color, qclamp, colorFromRgb, f32EPS]) 0 0 1).1
     ⟨0, 0, 0, 1⟩ ⟨1, 1, 1, 1⟩ rfl⟩

/-- Claim C7: a single series whose points all share one y value c, under
ValueGradient with no explicit values, resolves every point's t to 1/2 (the
±0.5 expansion of the degenerate y range makes the normalization
(c - (c - 1/2)) / 1 = 1/2, never a division by zero) and colors every point
with the midpoint blend of the two endpoint colors. -/
theorem constant_series_midpoint (c : ℚ) (pts : List (ℚ × ℚ)) (low high : Color)
    (hne : pts ≠ []) (hconst : ∀ q ∈ pts, q.2 = c) :
    ∃ out, primitivePoints [⟨.owned pts, .valueGradient low high none⟩] = some out ∧
      ∀ r ∈ out, r.color =
        colorFromRgb ((low.r + high.r) / 2) ((low.g + high.g) / 2)
          ((low.b + high.b) / 2) := by
  have hcollect : collectPointsWithColors
      [⟨.owned pts, .valueGradient low high none⟩] =
      pts.map (fun q => (q.1, q.2, ColorMode.valueGradient low high none)) := by
    simp [collectPointsWithColors, seriesPointList]
  have hconstC : ∀ q ∈ collectPointsWithColors
      [⟨.owned pts, .valueGradient low high none⟩],
      q.2.1 = c ∧ q.2.2 = ColorMode.valueGradient low high none := by
    intro q hq
    rw [hcollect] at hq
    obtain ⟨w, hw, rfl⟩ := List.mem_map.mp hq
    exact ⟨hconst w hw, rfl⟩
  have hysne : (collectPointsWithColors
      [⟨.owned pts, .valueGradient low high none⟩]).map (fun q => q.2.1) ≠ [] := by
    rw [hcollect]
    simpa using hne
  have hysconst : ∀ y ∈ (collectPointsWithColors
      [⟨.owned pts, .valueGradient low high none⟩]).map (fun q => q.2.1), y = c := by
    intro y hy
    obtain ⟨q, hq, rfl⟩ := List.mem_map.mp hy
    exact (hconstC q hq).1
  have hminC : listMin ((collectPointsWithColors
      [⟨.owned pts, .valueGradient low high none⟩]).map fun q => q.2.1) = c :=
    listMin_const c _ hysne hysconst
  have hmaxC : listMax ((collectPointsWithColors
      [⟨.owned pts, .valueGradient low high none⟩]).map fun q => q.2.1) = c :=
    listMax_const c _ hysne hysconst
  have hyr : dataYRange [⟨.owned pts, .valueGradient low high none⟩] =
      (c - 1/2, c + 1/2) := by
    rcases hC : collectPointsWithColors
        [⟨.owned pts, .valueGradient low high none⟩] with _ | ⟨q0, qrest⟩
    · rw [hC] at hysne
      simp at hysne
    · rw [hC] at hminC hmaxC
      simp only [dataYRange, hC, hminC, hmaxC]
      norm_num [f32EPS]
  have hcOf : ∀ (j : ℕ) (q : ℚ × ℚ × ColorMode),
      (collectPointsWithColors [⟨.owned pts, .valueGradient low high none⟩])[j]?
        = some q →
      colorOf (collectPointsWithColors
          [⟨.owned pts, .valueGradient low high none⟩]).length
        (c - 1/2) (c + 1/2) j q =
        some (lerp_color low high (1/2)) := by
    intro j q hj
    have hq := hconstC q (List.mem_iff_getElem?.mpr ⟨j, hj⟩)
    obtain ⟨qx, qy, qm⟩ := q
    simp only at hq
    obtain ⟨hqy, hqm⟩ := hq
    subst hqm
    rw [hqy]
    simp only [colorOf, Option.some_bind]
    have h1 : c - (c - 1/2) = 1/2 := by ring
    have h2 : c + 1/2 - (c - 1/2) = 1 := by ring
    rw [if_neg (by rw [h2]; norm_num [f32EPS]), h1, h2]
    norm_num
  obtain ⟨out, hout⟩ := applyColorAux_isSome
    (collectPointsWithColors [⟨.owned pts, .valueGradient low high none⟩]).length
    (c - 1/2) (c + 1/2)
    (collectPointsWithColors [⟨.owned pts, .valueGradient low high none⟩]) 0
    (fun j q hj => by rw [hcOf (0 + j) q (by simpa using hj)]; rfl)
  have hout2 : primitivePoints [⟨.owned pts, .valueGradient low high none⟩] =
      some out := by
    show apply_color_mode _ (dataYRange _).1 (dataYRange _).2 = some out
    rw [hyr]
    exact hout
  refine ⟨out, hout2, ?_⟩
  intro r hr
  obtain ⟨j, hj⟩ := List.mem_iff_getElem?.mp hr
  have hlen := applyColorAux_length _ _ _ _ _ _ hout
  have hjlt : j < (collectPointsWithColors
      [⟨.owned pts, .valueGradient low high none⟩]).length := by
    have : j < out.length := (List.getElem?_eq_some_iff.mp hj).1
    omega
  obtain ⟨q, hq⟩ : ∃ q, (collectPointsWithColors
      [⟨.owned pts, .valueGradient low high none⟩])[j]? = some q := by
    rw [List.getElem?_eq_getElem hjlt]
    exact ⟨_, rfl⟩
  have hpoint := applyColorAux_getElem _ _ _ _ _ _ hout j q hq
  rw [hcOf (0 + j) q (by simpa using hq)] at hpoint
  rw [hj] at hpoint
  have hr2 : r = ⟨(q.1, q.2.1), lerp_color low high (1/2)⟩ := by
    simpa using hpoint
  rw [hr2]
  show lerp_color low high (1/2) = _
  simp only [lerp_color, qclamp, colorFromRgb]
  rw [if_neg (by norm_num), if_neg (by norm_num)]
  simp only [Color.mk.injEq]
  refine ⟨by ring, by ring, by ring, trivial⟩

/-- Witness for C7: two points with y = 3 under a blue→red value gradient. -/
theorem constant_series_midpoint_witness :
    (([(0, 3), (1, 3)] : List (ℚ × ℚ)) ≠ [] ∧
      ∀ q ∈ ([(0, 3), (1, 3)] : List (ℚ × ℚ)), q.2 = 3) ∧
    (∃ out, primitivePoints
        [⟨.owned [(0, 3), (1, 3)], .valueGradient ⟨0, 0, 1, 1⟩ ⟨1, 0, 0, 1⟩ none⟩] =
        some out ∧
      ∀ r ∈ out, r.color =
        colorFromRgb (((⟨0, 0, 1, 1⟩ : Color).r + (⟨1, 0, 0, 1⟩ : Color).r) / 2)
          (((⟨0, 0, 1, 1⟩ : Color).g + (⟨1, 0, 0, 1⟩ : Color).g) / 2)
          (((⟨0, 0, 1, 1⟩ : Color).b + (⟨1, 0, 0, 1⟩ : Color).b) / 2)) :=
  ⟨⟨by simp, by simp⟩,
   constant_series_midpoint 3 [(0, 3), (1, 3)] ⟨0, 0, 1, 1⟩ ⟨1, 0, 0, 1⟩
     (by simp) (by simp)⟩

/-- Claim C10: when every visible point shares one x value and the x view range
is auto-fit (`none`), `resolve_view_ranges` returns a zero-span x range (c, c):
the ±0.5 degenerate expansion is applied only to the y axis, never to x, and
the autofit margin is span × padding = 0. -/
theorem resolve_zero_span_x (p : Plotter) (enforce_bounds : Bool) (c : ℚ)
    (hx : p.view_state.x_range = none)
    (hne : visiblePoints p.series p.hidden ≠ [])
    (hconst : ∀ q ∈ visiblePoints p.series p.hidden, q.1 = c) :
    (resolve_view_ranges p enforce_bounds).1 = (c, c) := by
  rcases hV : visiblePoints p.series p.hidden with _ | ⟨q0, qrest⟩
  · exact absurd hV hne
  · have hxconst : ∀ y ∈ (q0 :: qrest).map (fun q => q.1), y = c := by
      intro y hy
      obtain ⟨q, hq, rfl⟩ := List.mem_map.mp hy
      exact hconst q (hV ▸ hq)
    have hminx : listMin ((q0 :: qrest).map fun q => q.1) = c :=
      listMin_const c _ (by simp) hxconst
    have hmaxx : listMax ((q0 :: qrest).map fun q => q.1) = c :=
      listMax_const c _ (by simp) hxconst
    simp only [List.map_cons] at hminx hmaxx
    have hdr : (compute_data_ranges p.series p.hidden).1 = (c, c) := by
      by_cases hdeg : |listMax (q0.2 :: qrest.map fun q => q.2) -
          listMin (q0.2 :: qrest.map fun q => q.2)| < f32EPS
      · simp [compute_data_ranges, hV, hdeg, hminx, hmaxx]
      · simp [compute_data_ranges, hV, hdeg, hminx, hmaxx]
    simp only [resolve_view_ranges, hx, hdr]
    norm_num

/-- Witness for C10: one visible point (2, 7), auto-fit x. -/
theorem resolve_zero_span_x_witness :
    ((Plotter.mk [⟨.owned [(2, 7)], .solid ⟨1, 1, 1, 1⟩⟩] [] ⟨none, none⟩
        InteractionConfig.default 50 (1/20) true).view_state.x_range = none ∧
      visiblePoints [⟨.owned [(2, 7)], .solid ⟨1, 1, 1, 1⟩⟩] ([] : List ℕ) ≠ [] ∧
      ∀ q ∈ visiblePoints [⟨.owned [(2, 7)], .solid ⟨1, 1, 1, 1⟩⟩] ([] : List ℕ),
        q.1 = 2) ∧
    (resolve_view_ranges (Plotter.mk [⟨.owned [(2, 7)], .solid ⟨1, 1, 1, 1⟩⟩] []
        ⟨none, none⟩ InteractionConfig.default 50 (1/20) true) true).1 = (2, 2) :=
  ⟨⟨rfl, by simp [visiblePoints, seriesPointList],
    by simp [visiblePoints, seriesPointList]⟩,
   resolve_zero_span_x (Plotter.mk [⟨.owned [(2, 7)], .solid ⟨1, 1, 1, 1⟩⟩] []
      ⟨none, none⟩ InteractionConfig.default 50 (1/20) true) true 2 rfl
    (by simp [visiblePoints, seriesPointList])
    (by simp [visiblePoints, seriesPointList])⟩
